import Mathlib

/-!
# Verification of the veeqai super-admin session/auth core

Shallow embedding of the client-side session lifecycle manager and
authentication utilities of the super-admin dashboard:

* `src/lib/auth.ts` — `AuthService` (`refreshAccessToken`, `login`, `logout`);
* `src/lib/session-manager.ts` — `AdminSessionManager` (`start`, `stop`,
  `handleActivity`, `scheduleTimeouts`, `clearTimeouts`,
  `handleSessionTimeout`, `extendSession`, `clearAdminAuthData`,
  `startPeriodicCheck`, `notifyListeners`, `getSessionInfo`, `updateConfig`);
* `src/lib/csrf-protection.ts` — `SuperAdminCSRFProtection`
  (`constantTimeEqual`, `validateAdminToken`);
* `src/lib/validation.ts` — `SuperAdminValidator.sanitizeInput`;
* the API client (`SuperAdminApiClient`), whose `refreshTokenPromise`
  field is declared but never read or assigned anywhere in the repository.

Conventions of the embedding:

* `localStorage` is modelled by `TokenStore` (the three keys the auth layer
  uses: `adminToken`, `adminRefreshToken`, `adminUser`).
* Timestamps (`Date.now()`) are `Int` milliseconds.
* Timer handles returned by `setTimeout` are modelled as freshly allocated
  natural numbers drawn from a counter; `setInterval` handles created by
  `startPeriodicCheck` are only counted (`intervalsLive`) because the source
  discards the handle returned by `setInterval`.
* JavaScript string truthiness (`!s` is true for `""` and for
  `null`/`undefined`) is modelled explicitly where the source relies on it.
-/

/-- The three `localStorage` keys used by `AuthService`
(`adminToken`, `adminRefreshToken`, `adminUser`); `none` models an absent key. -/
structure TokenStore where
  adminToken : Option String
  adminRefreshToken : Option String
  adminUser : Option String
deriving Repr, DecidableEq

/-- `AuthService.logout()` storage effect: all three keys are removed
(`localStorage.removeItem` on each). -/
def logoutStore (_s : TokenStore) : TokenStore :=
  { adminToken := none, adminRefreshToken := none, adminUser := none }

/-- The user object in a backend response body: only the `role` field is
inspected by the code; `raw` stands for the full JSON object that gets stored. -/
structure RUser where
  role : String
  raw : String
deriving Repr, DecidableEq

/-- Outcome of `adminApiClient.post` on `/auth/refresh`: either the promise
resolves with a body (fields possibly absent), or it rejects with a
`SuperAdminApiError` carrying `status` (the API client wraps every failure,
network errors included, into `SuperAdminApiError`; status 0 is used for
network errors). -/
inductive RefreshResponse where
  | ok (accessToken : Option String) (user : Option RUser)
  | err (status : Nat)
deriving Repr, DecidableEq

/-- JavaScript truthiness of an optional string: `!x` is true when the value
is `null`/`undefined` or the empty string. -/
def jsTruthyStr : Option String → Bool
  | none => false
  | some s => s ≠ ""

/-- `AuthService.refreshAccessToken` as a function of the current
`localStorage` contents and the backend outcome of `POST /auth/refresh`.
Returns the boolean result together with the storage afterwards.
In the catch branch the source tests `error.response?.status === 401 || 403`,
but the thrown value is a `SuperAdminApiError`, whose status lives on
`error.status` and which has no `response` property; `error.response?.status`
is therefore `undefined` and `this.logout()` is never reached, so the catch
branch returns `false` with the storage untouched. -/
def refreshAccessToken (store : TokenStore) (backend : RefreshResponse) :
    Bool × TokenStore :=
  match store.adminRefreshToken with
  | none => (false, store)
  | some _ =>
    match backend with
    | RefreshResponse.err _ => (false, store)
    | RefreshResponse.ok accessToken user? =>
      if jsTruthyStr accessToken && user?.isSome then
        match user? with
        | some u =>
          if u.role ≠ "superadmin" then
            (false, logoutStore store)
          else
            (true, { store with adminToken := accessToken,
                                adminUser := some u.raw })
        | none => (false, store)
      else (false, store)

/-- A concrete fully-populated storage, as it stands after a successful login. -/
def storeAfterLogin : TokenStore :=
  { adminToken := some "at0", adminRefreshToken := some "rt0",
    adminUser := some "u0" }

/-- World for the concurrency analysis of `refreshAccessToken`: the storage,
the number of `POST /auth/refresh` requests issued so far, and the number of
calls currently suspended awaiting the backend. -/
structure RefreshWorld where
  store : TokenStore
  backendRequests : Nat
  pendingCalls : Nat
deriving Repr, DecidableEq

/-- The synchronous prefix of one `AuthService.refreshAccessToken()` call, up
to its first `await`: it reads `adminRefreshToken` and, when present, issues
the backend request and suspends. No shared in-flight handle is consulted:
the `refreshTokenPromise` field of `SuperAdminApiClient` is declared
(`private refreshTokenPromise: Promise<boolean> | null = null`) but never
read or assigned anywhere in the repository, and `refreshAccessToken` itself
keeps no static pending-promise state. `some false` means the call returned
immediately; `none` means it is now awaiting the backend. -/
def beginRefreshCall (w : RefreshWorld) : RefreshWorld × Option Bool :=
  match w.store.adminRefreshToken with
  | none => (w, some false)
  | some _ =>
      ({ w with backendRequests := w.backendRequests + 1,
                pendingCalls := w.pendingCalls + 1 }, none)

/-- `AdminSessionConfig` of `session-manager.ts` (the `activityEvents` list is
irrelevant to the verified properties and omitted). -/
structure Config where
  timeoutMinutes : Nat
  warningMinutes : Nat
  checkIntervalMs : Nat
deriving Repr, DecidableEq

/-- The defaults set in the `AdminSessionManager` constructor. -/
def defaultConfig : Config :=
  { timeoutMinutes := 480, warningMinutes := 30, checkIntervalMs := 300000 }

/-- `AdminSessionState` of `session-manager.ts`; `timeoutId` and
`warningTimeoutId` hold the `setTimeout` handles (modelled as allocated
numbers) or `null`. -/
structure MState where
  lastActivity : Int
  isActive : Bool
  warningShown : Bool
  timeoutId : Option Nat
  warningTimeoutId : Option Nat
deriving Repr, DecidableEq

/-- Whole-world state for the session manager: its config and state, the
`localStorage` keys it touches, a fresh-handle counter for `setTimeout`, the
number of live `setInterval` handles created by `startPeriodicCheck` (the
source discards the handle, so they can only accumulate), and counters of the
`alert` and `window.location.href = '/login'` side effects. -/
structure World where
  config : Config
  state : MState
  store : TokenStore
  nextTimerId : Nat
  intervalsLive : Nat
  alerts : Nat
  redirects : Nat
deriving Repr, DecidableEq

/-- `clearTimeouts()`: `clearTimeout` on both handles when set, then null
them. Only the two `setTimeout` handles are touched. -/
def clearTimeouts (w : World) : World :=
  { w with state := { w.state with timeoutId := none, warningTimeoutId := none } }

/-- `scheduleTimeouts()`: clears existing timeouts, then schedules a fresh
warning timer and a fresh timeout timer (two new `setTimeout` handles). -/
def scheduleTimeouts (w : World) : World :=
  let w1 := clearTimeouts w
  { w1 with
      state := { w1.state with
                   warningTimeoutId := some w1.nextTimerId,
                   timeoutId := some (w1.nextTimerId + 1) },
      nextTimerId := w1.nextTimerId + 2 }

/-- `start()`: no-op when already active; otherwise mark active, record the
current time as activity, schedule the timers, and `startPeriodicCheck()` —
which calls `setInterval` and discards the returned handle, so the model only
increments the count of live intervals. -/
def start (now : Int) (w : World) : World :=
  if w.state.isActive then w
  else
    let w1 := { w with state := { w.state with isActive := true, lastActivity := now } }
    let w2 := scheduleTimeouts w1
    { w2 with intervalsLive := w2.intervalsLive + 1 }

/-- `stop()`: no-op when not active; otherwise mark inactive and
`clearTimeouts()`. No `clearInterval` is ever issued (the interval handle was
discarded), so `intervalsLive` is unchanged. -/
def stop (w : World) : World :=
  if !w.state.isActive then w
  else clearTimeouts { w with state := { w.state with isActive := false } }

/-- `clearAdminAuthData()`: removes `adminToken` and `adminUser` from
`localStorage` (note: not `adminRefreshToken`). -/
def clearAdminAuthData (w : World) : World :=
  { w with store := { w.store with adminToken := none, adminUser := none } }

/-- `handleSessionTimeout()`: `stop()`, `clearAdminAuthData()`, `alert(...)`,
then `window.location.href = '/login'`. There is no guard against the session
being already stopped. -/
def handleSessionTimeout (w : World) : World :=
  let w1 := stop w
  let w2 := clearAdminAuthData w1
  { w2 with alerts := w2.alerts + 1, redirects := w2.redirects + 1 }

/-- `handleActivity()` at time `now`: if less than 1000ms elapsed since
`lastActivity`, return without any change; otherwise set
`lastActivity := now`, clear `warningShown`, and reschedule the timers.
(`notifyListeners()` is modelled separately; it does not touch this state.) -/
def handleActivity (now : Int) (w : World) : World :=
  if now - w.state.lastActivity < 1000 then w
  else
    scheduleTimeouts
      { w with state := { w.state with lastActivity := now, warningShown := false } }

/-- `extendSession()`: set `lastActivity := now`, clear `warningShown`,
reschedule the timers. Unconditional (no `isActive` guard in the source). -/
def extendSession (now : Int) (w : World) : World :=
  scheduleTimeouts
    { w with state := { w.state with lastActivity := now, warningShown := false } }

/-- `updateConfig(newConfig)`: replace the configuration wholesale (the model
passes the merged record), and reschedule the timers when active. -/
def updateConfig (c : Config) (w : World) : World :=
  let w1 := { w with config := c }
  if w1.state.isActive then scheduleTimeouts w1 else w1

/-- Storage effect of the success path of `AuthService.login`: the three keys
are written. The session manager is not started by `login`. -/
def loginStoreWrite (tok rtok usr : String) (w : World) : World :=
  { w with store := { adminToken := some tok, adminRefreshToken := some rtok,
                      adminUser := some usr } }

/-- Storage effect of `AuthService.logout()`: all three keys removed. -/
def logoutWorld (w : World) : World :=
  { w with store := logoutStore w.store }

/-- Return record of `getSessionInfo()`. -/
structure SessionInfo where
  isActive : Bool
  lastActivity : Int
  timeRemaining : Int
  timeRemainingMinutes : Int
  warningShown : Bool
deriving Repr, DecidableEq

/-- `getSessionInfo()` at time `now`: reads `Date.now()`, computes
`remainingMs = Math.max(0, timeoutMs - timeSinceActivity)` and returns the
info record. The method only reads; the world component of the result is the
world the method body leaves behind. -/
def getSessionInfo (now : Int) (w : World) : SessionInfo × World :=
  let timeSinceActivity := now - w.state.lastActivity
  let timeoutMs : Int := (w.config.timeoutMinutes : Int) * 60 * 1000
  let remainingMs := max 0 (timeoutMs - timeSinceActivity)
  ({ isActive := w.state.isActive,
     lastActivity := w.state.lastActivity,
     timeRemaining := remainingMs,
     timeRemainingMinutes := remainingMs / 60000,
     warningShown := w.state.warningShown }, w)

/-- Events that drive the manager and the auth storage in a client session.
Activity events carry no active-state guard: `start()` attaches the DOM
listeners with `this.handleActivity.bind(this)`, and `stop()` passes a fresh
`.bind(this)` result to `removeEventListener`, which removes nothing — so
once attached, the listeners stay attached and `handleActivity` (which
itself has no `isActive` check) also runs on a stopped manager. -/
inductive Ev where
  | start (now : Int)
  | stop
  | activity (now : Int)
  | extend (now : Int)
  | timeout
  | login (tok rtok usr : String)
  | logout
  | setConfig (c : Config)
deriving Repr, DecidableEq

/-- One step of the event system. -/
def stepEv (e : Ev) (w : World) : World :=
  match e with
  | Ev.start now => start now w
  | Ev.stop => stop w
  | Ev.activity now => handleActivity now w
  | Ev.extend now => extendSession now w
  | Ev.timeout => handleSessionTimeout w
  | Ev.login t r u => loginStoreWrite t r u w
  | Ev.logout => logoutWorld w
  | Ev.setConfig c => updateConfig c w

/-- The state at page load: constructor defaults, inactive, no timers,
empty storage, no side effects yet. -/
def initWorld : World :=
  { config := defaultConfig,
    state := { lastActivity := 0, isActive := false, warningShown := false,
               timeoutId := none, warningTimeoutId := none },
    store := { adminToken := none, adminRefreshToken := none, adminUser := none },
    nextTimerId := 0, intervalsLive := 0, alerts := 0, redirects := 0 }

/-- Run a trace of events from the initial world. -/
def runEv (es : List Ev) : World :=
  es.foldl (fun w e => stepEv e w) initWorld

/-- The timestamps of the activity events that pass the 1000ms throttle of
`handleActivity` when a sequence of raw activity events is delivered. -/
def acceptedTimes (w : World) : List Int → List Int
  | [] => []
  | t :: ts =>
    if t - w.state.lastActivity < 1000 then acceptedTimes (handleActivity t w) ts
    else t :: acceptedTimes (handleActivity t w) ts

/-- A JavaScript string for the CSRF comparison, represented as its sequence
of UTF-16 code units (`charCodeAt` values); string equality coincides with
list equality. -/
abbrev JsStr := List Nat

/-- `SuperAdminCSRFProtection.constantTimeEqual(a, b)`: length check, then
the bitwise OR over all positions of `a.charCodeAt(i) ^ b.charCodeAt(i)`,
compared with 0 at the end. -/
def constantTimeEqual (a b : JsStr) : Bool :=
  if a.length ≠ b.length then false
  else ((a.zip b).foldl (fun r p => r ||| (p.1 ^^^ p.2)) 0) == 0

/-- `SuperAdminCSRFProtection.validateAdminToken(requestToken)` with the
result of `getToken()` passed explicitly: `!currentToken` is true for `null`
and for the empty string, `!requestToken` for the empty string. -/
def validateAdminToken (currentToken : Option JsStr) (requestToken : JsStr) :
    Bool :=
  match currentToken with
  | none => false
  | some c =>
    if c = [] || requestToken = [] then false
    else constantTimeEqual c requestToken

/-- A subscribed session listener: how many notifications its body has
observed so far, and whether its body throws synchronously on a given
invocation (indexed by the number of notifications it has already observed).
Observation is recorded before the throw: a callback that throws still ran
for that notification. -/
structure Listener where
  received : Nat
  throwsAt : Nat → Bool

/-- One callback invocation: the body observes the notification, then either
returns normally or throws. -/
def invokeListener (l : Listener) : Listener × Except Unit Unit :=
  ({ l with received := l.received + 1 },
   if l.throwsAt l.received then Except.error () else Except.ok ())

/-- `notifyListeners()` body: `this.listeners.forEach(cb => { try { cb() }
catch (error) { } })` — each callback runs inside its own `try`; an exception
is swallowed and iteration continues with the remaining listeners. -/
def runListeners : List Listener → List Listener
  | [] => []
  | l :: rest =>
    match invokeListener l with
    | (l2, Except.ok _) => l2 :: runListeners rest
    | (l2, Except.error _) => l2 :: runListeners rest

/-- `notifyListeners()` as a method on the manager state and the listener
set: the body never reads or writes `this.state` or `this.config`. -/
def notifyListeners (s : MState) (ls : List Listener) :
    MState × List Listener :=
  (s, runListeners ls)

/-- Effect of one received notification on a listener record. -/
def bumpListener (l : Listener) : Listener :=
  { l with received := l.received + 1 }

/-- `n` successive notifications delivered to the listener set. -/
def iterNotify : Nat → List Listener → List Listener
  | 0, ls => ls
  | n + 1, ls => iterNotify n (runListeners ls)

/-- A JavaScript value passed to `sanitizeInput`: a string (as a character
list) or any non-string value. -/
inductive JSVal where
  | str (s : List Char)
  | nonString
deriving DecidableEq

/-- Whitespace stripped by JavaScript `String.prototype.trim`. -/
def isJsWhitespace (c : Char) : Bool :=
  c = ' ' || c = Char.ofNat 9 || c = Char.ofNat 10 || c = Char.ofNat 13 ||
  c = Char.ofNat 11 || c = Char.ofNat 12 || c = Char.ofNat 160 ||
  c = Char.ofNat 65279

/-- `input.trim()`: strip whitespace from both ends. -/
def jsTrim (s : List Char) : List Char :=
  ((s.dropWhile isJsWhitespace).reverse.dropWhile isJsWhitespace).reverse

/-- The characters removed by the first replace, the character class
`<`, `>`, single quote, double quote, `&`. -/
def isXssChar (c : Char) : Bool :=
  c = Char.ofNat 60 || c = Char.ofNat 62 || c = Char.ofNat 39 ||
  c = Char.ofNat 34 || c = Char.ofNat 38

/-- `.replace(/[<>'"&]/g, '')`: a global character-class replace with the
empty string deletes exactly the matching characters. -/
def removeXssChars (s : List Char) : List Char :=
  s.filter (fun c => !isXssChar c)

/-- Case-insensitive literal prefix test (patterns are given lowercase). -/
def startsWithCI : List Char → List Char → Bool
  | [], _ => true
  | _ :: _, [] => false
  | p :: ps, c :: cs => (c.toLower == p) && startsWithCI ps cs

/-- Scanner for `.replace(/lit/gi, '')` with an explicit recursion bound:
each step either deletes a match (and continues after it) or keeps one
character and moves right. The bound only limits recursion depth; since every
step consumes at least one character, a bound of `s.length` (as passed by
`removeAllCI`) is never exhausted before the scan completes. -/
def removeAllCIAux (p0 : Char) (pr : List Char) : Nat → List Char → List Char
  | 0, s => s
  | _ + 1, [] => []
  | fuel + 1, c :: rest =>
    if startsWithCI (p0 :: pr) (c :: rest) then
      removeAllCIAux p0 pr fuel (rest.drop pr.length)
    else
      c :: removeAllCIAux p0 pr fuel rest

/-- `.replace(/lit/gi, '')` for a non-empty literal `lit` (head `p0`, tail
`pr`): scan left to right; on a match, delete it and continue scanning after
the match; otherwise keep the character and move one position right —
JavaScript global-replace semantics for a literal pattern. -/
def removeAllCI (p0 : Char) (pr : List Char) (s : List Char) : List Char :=
  removeAllCIAux p0 pr s.length s

/-- JavaScript `\w`: ASCII letters, digits, underscore. -/
def isWordChar (c : Char) : Bool :=
  c.isAlphanum || c = '_'

/-- Length of the maximal leading run of word characters. -/
def wordRunLen : List Char → Nat
  | [] => 0
  | c :: cs => if isWordChar c then wordRunLen cs + 1 else 0

/-- `.replace(/on\w+=/gi, '')`. Since `=` is not a word character, the greedy
`\w+` can only succeed with the maximal word run followed directly by `=`;
on a match the scanner continues after the `=`, otherwise it advances one
character. -/
def removeOnHandlersAux : Nat → List Char → List Char
  | 0, s => s
  | _ + 1, [] => []
  | _ + 1, [c] => [c]
  | fuel + 1, c :: n :: rest =>
    if c.toLower == 'o' && n.toLower == 'n' then
      let k := wordRunLen rest
      if 0 < k && (rest.drop k).head? = some (Char.ofNat 61) then
        removeOnHandlersAux fuel (List.drop (k + 1) rest)
      else
        c :: removeOnHandlersAux fuel (n :: rest)
    else
      c :: removeOnHandlersAux fuel (n :: rest)

/-- `.replace(/on\w+=/gi, '')` (see `removeOnHandlersAux`; the recursion
bound `s.length` is never exhausted since every step consumes at least one
character). -/
def removeOnHandlers (s : List Char) : List Char :=
  removeOnHandlersAux s.length s

/-- `.replace(/javascript:/gi, '')`. -/
def removeJavascriptProto (s : List Char) : List Char :=
  removeAllCI (Char.ofNat 106) (String.toList "avascript:") s

/-- `.replace(/data:/gi, '')`. -/
def removeDataProto (s : List Char) : List Char :=
  removeAllCI (Char.ofNat 100) (String.toList "ata:") s

/-- `.replace(/vbscript:/gi, '')`. -/
def removeVbscriptProto (s : List Char) : List Char :=
  removeAllCI (Char.ofNat 118) (String.toList "bscript:") s

/-- `.replace(/expression\(/gi, '')`. -/
def removeCssExpression (s : List Char) : List Char :=
  removeAllCI (Char.ofNat 101) (String.toList "xpression(") s

/-- `SuperAdminValidator.sanitizeInput(input)`: `''` when the input is falsy
or not a string, otherwise `trim`, the character-class removal, then the five
pattern removals in source order. -/
def sanitizeInput : JSVal → List Char
  | JSVal.nonString => []
  | JSVal.str s =>
    if s = [] then []
    else
      removeCssExpression (removeVbscriptProto (removeDataProto
        (removeOnHandlers (removeJavascriptProto (removeXssChars (jsTrim s))))))

/-- Concurrency analysis start state: logged-in storage, no refresh activity. -/
def refreshWorld0 : RefreshWorld :=
  { store := storeAfterLogin, backendRequests := 0, pendingCalls := 0 }

/-- C1: the claim says N concurrent `refresh()` calls while one is pending
issue exactly 1 backend refresh request. On the code, a second
`refreshAccessToken()` beginning while the first is still awaiting the
backend issues its own `POST /auth/refresh`: starting from a logged-in
storage, after two overlapping calls both are suspended
(`pendingCalls = 2`) and two backend requests have been issued, because no
shared in-flight handle exists (`SuperAdminApiClient.refreshTokenPromise`
is declared but never read or assigned). -/
theorem refresh_concurrent_issues_duplicate_requests :
    ((beginRefreshCall refreshWorld0).1.pendingCalls = 1 ∧
     (beginRefreshCall refreshWorld0).1.backendRequests = 1) ∧
    (beginRefreshCall (beginRefreshCall refreshWorld0).1).2 = none ∧
    (beginRefreshCall (beginRefreshCall refreshWorld0).1).1.backendRequests = 2 := by
  decide

/-- C2: the claim says every failing `refreshAccessToken()` clears the
TokenStore entirely. When `POST /auth/refresh` rejects with HTTP 401 the
thrown `SuperAdminApiError` has no `response` property, so the catch guard
`error.response?.status === 401 || ... === 403` never holds and `logout()`
is skipped: the call returns `false` with the three keys still stored. -/
theorem refreshAccessToken_401_leaves_store :
    refreshAccessToken storeAfterLogin (RefreshResponse.err 401) =
      (false, storeAfterLogin) ∧
    storeAfterLogin.adminToken = some "at0" ∧
    storeAfterLogin.adminRefreshToken = some "rt0" ∧
    storeAfterLogin.adminUser = some "u0" := by
  decide

/-- C4: the claim says `stop()` cancels every outstanding timer and interval
including the periodic check interval. After `start(); stop()` the two
`setTimeout` handles are cleared and a second `stop()` is a no-op, but the
`setInterval` created by `startPeriodicCheck` is still live: its handle was
discarded by the source, so no `clearInterval` can ever be issued for it. -/
theorem stop_leaves_periodic_interval_live :
    (runEv [Ev.start 0, Ev.stop]).state.isActive = false ∧
    (runEv [Ev.start 0, Ev.stop]).state.timeoutId = none ∧
    (runEv [Ev.start 0, Ev.stop]).state.warningTimeoutId = none ∧
    stepEv Ev.stop (runEv [Ev.start 0, Ev.stop]) = runEv [Ev.start 0, Ev.stop] ∧
    (runEv [Ev.start 0, Ev.stop]).intervalsLive = 1 := by
  decide

/-- C5 counterexample: the claim says triggering `handleSessionTimeout` on an
already-stopped session is a no-op and the redirect fires once per expiry.
The initial world is stopped, yet `handleSessionTimeout` changes it (it
alerts and redirects), and two triggers perform the redirect twice. -/
theorem timeout_on_stopped_not_noop :
    initWorld.state.isActive = false ∧
    handleSessionTimeout initWorld ≠ initWorld ∧
    (handleSessionTimeout initWorld).redirects = 1 ∧
    (handleSessionTimeout (handleSessionTimeout initWorld)).redirects = 2 := by
  decide

/-- C5 amended: `handleSessionTimeout()` has no already-stopped guard: on
every invocation it stops the manager (a no-op when already stopped),
removes `adminToken` and `adminUser`, shows the alert and performs the
login redirect — so each trigger, including a second one on an
already-stopped session, fires the navigation side effect once more. -/
theorem handleSessionTimeout_always_fires (w : World) :
    (handleSessionTimeout w).state.isActive = false ∧
    (handleSessionTimeout w).store.adminToken = none ∧
    (handleSessionTimeout w).store.adminUser = none ∧
    (handleSessionTimeout w).alerts = w.alerts + 1 ∧
    (handleSessionTimeout w).redirects = w.redirects + 1 := by
  unfold handleSessionTimeout stop clearTimeouts clearAdminAuthData
  by_cases h : w.state.isActive <;> simp [h]

/-- C7: `getSessionInfo()` leaves the whole world (config, session state,
timers, TokenStore) unchanged, and the returned `timeRemaining` equals
`max 0 (timeoutMinutes * 60 * 1000 - (now - lastActivity))`. -/
theorem getSessionInfo_pure_and_formula (now : Int) (w : World) :
    (getSessionInfo now w).2 = w ∧
    (getSessionInfo now w).1.timeRemaining =
      max 0 ((w.config.timeoutMinutes : Int) * 60 * 1000 -
        (now - w.state.lastActivity)) :=
  ⟨rfl, rfl⟩

/-- C3 counterexample: the spec invariant fails on reachable states, timer
part included. First, after a successful `AuthService.login` (which writes
all three storage keys but does not start the session manager) the manager
is inactive yet the TokenStore holds a valid access token. Second, after
`start(); stop()` a later activity event still reaches `handleActivity`
(the listeners attached by `start` are never detached, because `stop` hands
a fresh `.bind(this)` function to `removeEventListener`, and
`handleActivity` has no `isActive` guard): it reschedules both timers, so
the manager is inactive with a scheduled hard-timeout timer. -/
theorem inactive_state_claim_false :
    (¬ (∀ es : List Ev, (runEv es).state.isActive = false →
        (runEv es).state.timeoutId = none ∧
        (runEv es).state.warningTimeoutId = none ∧
        (runEv es).intervalsLive = 0 ∧
        (runEv es).store.adminToken = none)) ∧
    (runEv [Ev.start 0, Ev.stop, Ev.activity 2000]).state.isActive = false ∧
    (runEv [Ev.start 0, Ev.stop, Ev.activity 2000]).state.timeoutId ≠ none ∧
    (runEv [Ev.start 0, Ev.stop, Ev.activity 2000]).state.warningTimeoutId ≠
      none := by
  refine ⟨?_, by decide, by decide, by decide⟩
  intro h
  have h2 := h [Ev.login "t" "r" "u"] (by decide)
  exact absurd h2.2.2.2 (by decide)

/-- C3 amended: what survives of the invariant is the action-level
guarantee: `stop()` invoked on an active manager deactivates it and clears
both fine-grained timers before returning. As a state invariant the claim
fails in every part: the TokenStore may hold a valid access token while
inactive (login without start), the periodic interval is never cancelled
(its handle is discarded), and even the timers can be armed while inactive,
because the activity listeners are never detached and `handleActivity`
reschedules unconditionally (see the counterexample). -/
theorem stop_on_active_clears_timers (w : World)
    (h : w.state.isActive = true) :
    (stop w).state.isActive = false ∧
    (stop w).state.timeoutId = none ∧
    (stop w).state.warningTimeoutId = none := by
  simp [stop, h, clearTimeouts]

/-- Witness for the amended C3 theorem: stopping a freshly started session. -/
theorem stop_on_active_clears_timers_witness :
    (stop (runEv [Ev.start 0])).state.isActive = false ∧
    (stop (runEv [Ev.start 0])).state.timeoutId = none ∧
    (stop (runEv [Ev.start 0])).state.warningTimeoutId = none :=
  stop_on_active_clears_timers (runEv [Ev.start 0]) (by decide)

/-- C6: the 1000ms activity throttle. An event within 1000ms of the last
accepted update leaves the state (and the whole world) unchanged; an
accepted event sets `lastActivity` to the event time, clears `warningShown`
and schedules two fresh timers; `lastActivity` never decreases; and along
any event sequence the accepted updates are at least 1000ms apart, so
`lastActivity` is updated at most once per 1000ms window. -/
theorem handleActivity_throttle_spec :
    (∀ (w : World) (t : Int), t - w.state.lastActivity < 1000 →
        handleActivity t w = w) ∧
    (∀ (w : World) (t : Int), 1000 ≤ t - w.state.lastActivity →
        (handleActivity t w).state.lastActivity = t ∧
        (handleActivity t w).state.warningShown = false ∧
        (handleActivity t w).state.warningTimeoutId = some w.nextTimerId ∧
        (handleActivity t w).state.timeoutId = some (w.nextTimerId + 1)) ∧
    (∀ (w : World) (t : Int),
        w.state.lastActivity ≤ (handleActivity t w).state.lastActivity) ∧
    (∀ (w : World) (ts : List Int),
        List.Chain' (fun a b => 1000 ≤ b - a)
          (w.state.lastActivity :: acceptedTimes w ts)) := by
  refine ⟨?_, ?_, ?_, ?_⟩
  · intro w t h
    simp [handleActivity, h]
  · intro w t h
    have h2 : ¬ (t - w.state.lastActivity < 1000) := by omega
    simp [handleActivity, h2, scheduleTimeouts, clearTimeouts]
  · intro w t
    by_cases h : t - w.state.lastActivity < 1000
    · simp [handleActivity, h]
    · have hl : (handleActivity t w).state.lastActivity = t := by
        simp [handleActivity, h, scheduleTimeouts, clearTimeouts]
      rw [hl]
      omega
  · intro w ts
    induction ts generalizing w with
    | nil =>
      simp [acceptedTimes]
    | cons t ts ih =>
      by_cases h : t - w.state.lastActivity < 1000
      · have he : handleActivity t w = w := by simp [handleActivity, h]
        simpa [acceptedTimes, h, he] using ih w
      · have hl : (handleActivity t w).state.lastActivity = t := by
          simp [handleActivity, h, scheduleTimeouts, clearTimeouts]
        have hch := ih (handleActivity t w)
        rw [hl] at hch
        simp only [acceptedTimes, if_neg h]
        exact List.chain'_cons.mpr ⟨by omega, hch⟩

/-- Witness for C6 at concrete inputs: an event 500ms after the last update
is ignored; an event 2000ms after is accepted and recorded. -/
theorem handleActivity_throttle_spec_witness :
    handleActivity 500 initWorld = initWorld ∧
    (handleActivity 2000 initWorld).state.lastActivity = 2000 :=
  ⟨handleActivity_throttle_spec.1 initWorld 500 (by decide),
   (handleActivity_throttle_spec.2.1 initWorld 2000 (by decide)).1⟩

/-- A notification reaches every listener in order, whether or not earlier
callbacks threw: the per-listener `try` swallows the exception and the
iteration continues. -/
theorem runListeners_eq_map (ls : List Listener) :
    runListeners ls = ls.map bumpListener := by
  induction ls with
  | nil => rfl
  | cons l rest ih =>
    cases hc : l.throwsAt l.received <;>
      simp [runListeners, invokeListener, hc, bumpListener, ih]

/-- After `n` notifications every listener has observed `n` more calls,
independently of which callbacks threw along the way. -/
theorem iterNotify_eq (n : Nat) (ls : List Listener) :
    iterNotify n ls =
      ls.map (fun l => { l with received := l.received + n }) := by
  induction n generalizing ls with
  | zero =>
    have hid : (fun l : Listener => { l with received := l.received + 0 }) =
        fun l => l := by
      funext l
      cases l
      rfl
    simp [iterNotify, hid]
  | succ n ih =>
    rw [iterNotify, ih, runListeners_eq_map, List.map_map]
    congr 1
    funext l
    cases l
    simp [bumpListener]
    omega

/-- C8: listener exceptions are isolated per listener. `notifyListeners`
leaves the manager state untouched; every subscribed listener — including
any that throws — observes the notification; and over any number of
successive notifications every listener observes every one of them. -/
theorem notifyListeners_isolation (s : MState) (ls : List Listener) :
    (notifyListeners s ls).1 = s ∧
    (notifyListeners s ls).2 = ls.map bumpListener ∧
    (∀ n : Nat, iterNotify n ls =
      ls.map (fun l => { l with received := l.received + n })) :=
  ⟨rfl, runListeners_eq_map ls, fun n => iterNotify_eq n ls⟩

/-- A bitwise OR of naturals is zero exactly when both operands are. -/
theorem nat_lor_eq_zero (a b : Nat) : a ||| b = 0 ↔ a = 0 ∧ b = 0 := by
  constructor
  · intro h
    have key : ∀ i, a.testBit i = false ∧ b.testBit i = false := by
      intro i
      have ht := congrArg (fun n => Nat.testBit n i) h
      simpa [Nat.testBit_lor] using ht
    constructor
    · apply Nat.eq_of_testBit_eq
      intro i
      simp [(key i).1]
    · apply Nat.eq_of_testBit_eq
      intro i
      simp [(key i).2]
  · rintro ⟨h1, h2⟩
    simp [h1, h2]

/-- The accumulator loop of `constantTimeEqual` ends at zero exactly when it
started at zero and every compared pair of code units is equal. -/
theorem lor_fold_eq_zero (l : List (Nat × Nat)) (acc : Nat) :
    (l.foldl (fun r p => r ||| (p.1 ^^^ p.2)) acc = 0) ↔
      (acc = 0 ∧ ∀ p ∈ l, p.1 = p.2) := by
  induction l generalizing acc with
  | nil => simp
  | cons p l ih =>
    rw [List.foldl_cons, ih, nat_lor_eq_zero, Nat.xor_eq_zero,
      List.forall_mem_cons]
    tauto

/-- For equal-length lists, pointwise equality along the zip is equality. -/
theorem zip_forall_eq (a : List Nat) :
    ∀ b : List Nat, a.length = b.length →
      ((∀ p ∈ a.zip b, p.1 = p.2) ↔ a = b) := by
  induction a with
  | nil =>
    intro b h
    cases b with
    | nil => simp
    | cons y ys => simp at h
  | cons x xs ih =>
    intro b h
    cases b with
    | nil => simp at h
    | cons y ys =>
      simp only [List.length_cons, Nat.add_right_cancel_iff] at h
      rw [List.zip_cons_cons, List.forall_mem_cons, ih ys h, List.cons.injEq]

/-- C9: `constantTimeEqual(a, b)` is true exactly when the two strings are
equal; `validateAdminToken` rejects when no current token exists, and — for
the nonempty tokens `getToken()` actually produces (`generateSecureToken`
always writes a nonempty token, and `getToken` regenerates when the stored
one is falsy) — accepts exactly the request tokens equal to the current
one. -/
theorem constantTimeEqual_validate_spec :
    (∀ a b : JsStr, constantTimeEqual a b = true ↔ a = b) ∧
    (∀ r : JsStr, validateAdminToken none r = false) ∧
    (∀ c r : JsStr, c ≠ [] →
      (validateAdminToken (some c) r = true ↔ r = c)) := by
  have hct : ∀ a b : JsStr, constantTimeEqual a b = true ↔ a = b := by
    intro a b
    unfold constantTimeEqual
    by_cases h : a.length = b.length
    · simp only [h, ne_eq, not_true_eq_false, if_false, beq_iff_eq]
      rw [lor_fold_eq_zero, zip_forall_eq a b h]
      simp
    · have hne : a ≠ b := by
        intro he
        exact h (he ▸ rfl)
      simp [h, hne]
  refine ⟨hct, fun r => rfl, ?_⟩
  intro c r hc
  by_cases hr : r = []
  · subst hr
    have hv : validateAdminToken (some c) [] = false := by
      simp [validateAdminToken]
    rw [hv]
    simp only [Bool.false_eq_true, false_iff]
    exact fun he => hc he.symm
  · simp [validateAdminToken, hc, hr, hct c r, eq_comm]

/-- Witness for C9: a concrete nonempty current token accepts itself. -/
theorem constantTimeEqual_validate_spec_witness :
    validateAdminToken (some [104, 105]) [104, 105] = true :=
  (constantTimeEqual_validate_spec.2.2 [104, 105] [104, 105] (by decide)).mpr
    rfl

/-- The literal-pattern remover only deletes characters. -/
theorem mem_removeAllCIAux (p0 : Char) (pr : List Char) (c : Char) :
    ∀ (fuel : Nat) (s : List Char), c ∈ removeAllCIAux p0 pr fuel s → c ∈ s := by
  intro fuel
  induction fuel with
  | zero =>
    intro s h
    exact h
  | succ fuel ih =>
    intro s h
    cases s with
    | nil => simpa [removeAllCIAux] using h
    | cons x rest =>
      simp only [removeAllCIAux] at h
      by_cases hm : startsWithCI (p0 :: pr) (x :: rest) = true
      · rw [if_pos hm] at h
        exact List.mem_cons_of_mem x (List.mem_of_mem_drop (ih _ h))
      · rw [if_neg hm] at h
        rcases List.mem_cons.mp h with h1 | h2
        · exact h1 ▸ List.mem_cons_self x rest
        · exact List.mem_cons_of_mem x (ih rest h2)

/-- `removeAllCI` only deletes characters. -/
theorem mem_removeAllCI (p0 : Char) (pr : List Char) (c : Char)
    (s : List Char) (h : c ∈ removeAllCI p0 pr s) : c ∈ s :=
  mem_removeAllCIAux p0 pr c s.length s h

/-- The `on\w+=` remover only deletes characters. -/
theorem mem_removeOnHandlersAux (c : Char) :
    ∀ (fuel : Nat) (s : List Char), c ∈ removeOnHandlersAux fuel s → c ∈ s := by
  intro fuel
  induction fuel with
  | zero =>
    intro s h
    exact h
  | succ fuel ih =>
    intro s h
    match s with
    | [] => simpa [removeOnHandlersAux] using h
    | [x] => simpa [removeOnHandlersAux] using h
    | x :: n :: rest =>
      simp only [removeOnHandlersAux] at h
      by_cases ho : (x.toLower == Char.ofNat 111 && n.toLower == Char.ofNat 110) = true
      · rw [if_pos ho] at h
        by_cases hm : (0 < wordRunLen rest &&
            (rest.drop (wordRunLen rest)).head? = some (Char.ofNat 61)) = true
        · rw [if_pos hm] at h
          have h2 := List.mem_of_mem_drop (ih _ h)
          exact List.mem_cons_of_mem x (List.mem_cons_of_mem n h2)
        · rw [if_neg hm] at h
          rcases List.mem_cons.mp h with h1 | h2
          · exact h1 ▸ List.mem_cons_self x (n :: rest)
          · exact List.mem_cons_of_mem x (ih (n :: rest) h2)
      · rw [if_neg ho] at h
        rcases List.mem_cons.mp h with h1 | h2
        · exact h1 ▸ List.mem_cons_self x (n :: rest)
        · exact List.mem_cons_of_mem x (ih (n :: rest) h2)

/-- `removeOnHandlers` only deletes characters. -/
theorem mem_removeOnHandlers (c : Char) (s : List Char)
    (h : c ∈ removeOnHandlers s) : c ∈ s :=
  mem_removeOnHandlersAux c s.length s h

/-- `trim` only deletes characters. -/
theorem mem_jsTrim (c : Char) (s : List Char) (h : c ∈ jsTrim s) : c ∈ s := by
  unfold jsTrim at h
  rw [List.mem_reverse] at h
  have h2 := (List.dropWhile_suffix isJsWhitespace).sublist.subset h
  rw [List.mem_reverse] at h2
  exact (List.dropWhile_suffix isJsWhitespace).sublist.subset h2

/-- The character-class replace removes every banned character. -/
theorem removeXssChars_clean (c : Char) (s : List Char)
    (h : c ∈ removeXssChars s) : isXssChar c = false := by
  have h2 := (List.mem_filter.mp h).2
  simpa using h2

/-- C10: `sanitizeInput` never returns any of the characters `<`, `>`,
single quote, double quote, `&` (the first replace removes them and the
later replaces only delete characters), and returns the empty string on an
empty or non-string input. -/
theorem sanitizeInput_spec :
    (∀ (v : JSVal) (c : Char), c ∈ sanitizeInput v → isXssChar c = false) ∧
    sanitizeInput (JSVal.str []) = [] ∧
    sanitizeInput JSVal.nonString = [] := by
  refine ⟨?_, rfl, rfl⟩
  intro v c h
  cases v with
  | nonString => simp [sanitizeInput] at h
  | str s =>
    by_cases hs : s = []
    · subst hs
      simp [sanitizeInput] at h
    · rw [sanitizeInput, if_neg hs] at h
      rw [removeCssExpression] at h
      have h1 := mem_removeAllCI _ _ _ _ h
      rw [removeVbscriptProto] at h1
      have h2 := mem_removeAllCI _ _ _ _ h1
      rw [removeDataProto] at h2
      have h3 := mem_removeAllCI _ _ _ _ h2
      have h4 := mem_removeOnHandlers _ _ h3
      rw [removeJavascriptProto] at h4
      have h5 := mem_removeAllCI _ _ _ _ h4
      exact removeXssChars_clean c _ h5

/-- Witness for C10: the letter `a` survives sanitizing a concrete string
and is not a banned character. -/
theorem sanitizeInput_spec_witness :
    isXssChar (Char.ofNat 97) = false :=
  sanitizeInput_spec.1 (JSVal.str (String.toList "a<b>")) (Char.ofNat 97)
    (by decide)
